import Mathlib

/-!
Verification development for the X-Ray decision-observability system
(client-side instrumentation SDK `sdk/client.py` plus server-side ingest
and decision-funnel reconstruction `backend/app/routes.py`).

The Python code is shallowly embedded:
* JSON-compatible values are modelled by `JVal`; Python dictionaries by
  association lists `List (String × JVal)` with first-match lookup.
* Python's `dict.get`, truthiness, and the short-circuit `or` idiom are
  modelled by `pyGet`, `truthy` and `pyOr`.
* Floats are modelled by `ℚ` (the arithmetic in the source is plain
  `+ - * /` on decimal constants).
* Code that can raise (`TypeError` on non-numeric arithmetic) returns
  `Except String _`.
* The context-manager scopes of the SDK (`start_run`, `step`) are modelled
  as functions from the scope's inputs, the previously current run/step and
  the body's outcome (normal return or raised exception) to the resulting
  record, the enqueued events, the restored context and the re-raised
  exception.
-/

namespace XRay

/-- JSON-compatible values (the payloads the system passes around). -/
inductive JVal where
  | null : JVal
  | bool (b : Bool) : JVal
  | num (q : ℚ) : JVal
  | str (s : String) : JVal
  | arr (elems : List JVal) : JVal
  | obj (fields : List (String × JVal)) : JVal
  deriving Repr

/-- Python truthiness of a JSON value. -/
def truthy : JVal → Bool
  | .null => false
  | .bool b => b
  | .num q => q != 0
  | .str s => s != ""
  | .arr l => !l.isEmpty
  | .obj l => !l.isEmpty

/-- Raw dictionary lookup: `d[k]` if present (first match), else `none`.
Models Python `d.get(k)` up to the `null` value, see `pyGet`. -/
def dictGet (d : List (String × JVal)) (k : String) : Option JVal :=
  (d.find? (fun p => p.1 == k)).map Prod.snd

/-- Python `d.get(k)`: a stored JSON `null` behaves exactly like a missing
key in every use the code makes of it (`is None` tests, truthiness and
arithmetic), so it is collapsed to `none`. -/
def pyGet (d : List (String × JVal)) (k : String) : Option JVal :=
  match dictGet d k with
  | some JVal.null => none
  | v => v

/-- Python `a or b` on optional values (`None` and falsy values select `b`). -/
def pyOr (a b : Option JVal) : Option JVal :=
  match a with
  | some v => if truthy v then some v else b
  | none => b

/-- Length of `v` when `v` is a list, else `None`: models
`len(x) if isinstance(x, list) else None`. -/
def lenIfList (v : Option JVal) : Option JVal :=
  match v with
  | some (.arr l) => some (.num l.length)
  | _ => none

/-- Numeric view of a JSON value, as Python arithmetic sees it
(`bool` is an `int` subclass in Python); `none` means a `TypeError`. -/
def jnumOf : JVal → Option ℚ
  | .num q => some q
  | .bool b => some (if b then 1 else 0)
  | _ => none

/-- Step types (`backend/app/models.py`, `StepType`). -/
inductive StepType where
  | llm
  | retrieval
  | filter
  | logic
  deriving DecidableEq, Repr

/-- Run statuses (`backend/app/models.py`, `RunStatus`). -/
inductive RunStatus where
  | RUNNING
  | COMPLETED
  | FAILED
  deriving DecidableEq, Repr

/-- A stored run row (`backend/app/models.py`, `Run`). -/
structure Run where
  id : String
  name : String
  status : RunStatus
  total_cost : ℚ := 0
  tags : List (String × JVal) := []
  started_at : Option String := none
  completed_at : Option String := none
  error : Option String := none

/-- A stored step row (`backend/app/models.py`, `Step`). -/
structure Step where
  id : String
  run_id : String
  name : String
  type : StepType
  inputs : List (String × JVal) := []
  outputs : List (String × JVal) := []
  step_metadata : List (String × JVal) := []
  reasoning : Option String := none
  cost : ℚ := 0
  started_at : Option String := none
  completed_at : Option String := none
  error : Option String := none

/-- One entry of the reconstructed decision funnel
(`backend/app/schemas.py`, `DecisionFunnelStep`). -/
structure DecisionFunnelStep where
  step_id : String
  step_name : String
  step_type : StepType
  input_count : Option JVal := none
  output_count : Option JVal := none
  drop_rate : Option JVal := none
  rejection_histogram : Option JVal := none
  reasoning : Option String := none
  cost : ℚ := 0

/-- The analyze endpoint's response (`backend/app/schemas.py`,
`AnalyzeResponseSchema`). -/
structure AnalyzeResponse where
  run_id : String
  run_name : String
  status : RunStatus
  total_cost : ℚ
  funnel : List DecisionFunnelStep
  final_output : Option (List (String × JVal))

/-- FILTER input count (`routes.py` line 173):
`metadata.get("total_count") or inputs.get("candidate_count")`. -/
def filterInputCount (metadata inputs : List (String × JVal)) : Option JVal :=
  pyOr (pyGet metadata "total_count") (pyGet inputs "candidate_count")

/-- FILTER output count (`routes.py` lines 174-176):
`metadata.get("survivor_count") or (len(survivors) if list else None)`. -/
def filterOutputCount (metadata outputs : List (String × JVal)) : Option JVal :=
  pyOr (pyGet metadata "survivor_count") (lenIfList (pyGet outputs "survivors"))

/-- RETRIEVAL output count (`routes.py` lines 180-183):
`outputs.get("count") or (len(items) if list else None)`. -/
def retrievalOutputCount (outputs : List (String × JVal)) : Option JVal :=
  pyOr (pyGet outputs "count") (lenIfList (pyGet outputs "items"))

/-- Per-type count extraction of the funnel loop (`routes.py` lines 167-187).
LLM and LOGIC steps derive no counts. -/
def deriveCounts (s : Step) : Option JVal × Option JVal :=
  match s.type with
  | .filter => (filterInputCount s.step_metadata s.inputs,
                filterOutputCount s.step_metadata s.outputs)
  | .retrieval => (none, retrievalOutputCount s.outputs)
  | _ => (none, none)

/-- Drop-rate logic (`routes.py` lines 189-193): metadata value wins when
present; otherwise computed as `(input - output) / input` when both counts
are known and `input > 0`; a non-numeric comparison or subtraction raises
`TypeError` exactly as in Python. -/
def dropRateOf (mdRate ic oc : Option JVal) : Except String (Option JVal) :=
  match mdRate with
  | some v => .ok (some v)
  | none =>
    match ic, oc with
    | some a, some b =>
      match jnumOf a with
      | none => .error "TypeError"
      | some qa =>
        if 0 < qa then
          match jnumOf b with
          | none => .error "TypeError"
          | some qb => .ok (some (.num ((qa - qb) / qa)))
        else .ok none
    | _, _ => .ok none

/-- Builds one funnel entry from a step row (`routes.py` lines 159-206). -/
def funnelEntryOf (s : Step) : Except String DecisionFunnelStep :=
  let counts := deriveCounts s
  match dropRateOf (pyGet s.step_metadata "drop_rate") counts.1 counts.2 with
  | .error e => .error e
  | .ok dr =>
    .ok { step_id := s.id
          step_name := s.name
          step_type := s.type
          input_count := counts.1
          output_count := counts.2
          drop_rate := dr
          rejection_histogram := pyGet s.step_metadata "rejection_histogram"
          reasoning := s.reasoning
          cost := s.cost }

/-- The funnel loop (`routes.py` lines 156-206): builds the entry list and
threads the running final output, which every LOGIC step overwrites with
its own outputs. -/
def analyzeLoop (steps : List Step) (acc : List DecisionFunnelStep)
    (fo : Option (List (String × JVal))) :
    Except String (List DecisionFunnelStep × Option (List (String × JVal))) :=
  match steps with
  | [] => .ok (acc.reverse, fo)
  | s :: rest =>
    let fo' := if s.type == StepType.logic then some s.outputs else fo
    match funnelEntryOf s with
    | .error e => .error e
    | .ok entry => analyzeLoop rest (entry :: acc) fo'

/-- The analyze endpoint (`routes.py`, `analyze_run`), given the run row and
its step rows already ordered by `started_at`. -/
def analyze_run (run : Run) (steps : List Step) : Except String AnalyzeResponse :=
  match analyzeLoop steps [] none with
  | .error e => .error e
  | .ok (funnel, fo) =>
    .ok { run_id := run.id
          run_name := run.name
          status := run.status
          total_cost := run.total_cost
          funnel := funnel
          final_output := fo }

/-- Payload of a `run_complete` / `run_failed` event as read by the ingest
route: `id` and `name` are indexed directly (a missing key would be a hard
`KeyError`), the rest is read with `.get` and so is optional. -/
structure RunEventData where
  id : String
  name : String
  total_cost : Option ℚ := none
  tags : List (String × JVal) := []
  started_at : Option String := none
  completed_at : Option String := none
  error : Option String := none

/-- Payload of a `step_complete` / `step_failed` event as read by the ingest
route; `id`, `run_id`, `name` and `type` are indexed directly. -/
structure StepEventData where
  id : String
  run_id : String
  name : String
  type : StepType
  inputs : List (String × JVal) := []
  outputs : List (String × JVal) := []
  metadata : List (String × JVal) := []
  reasoning : Option String := none
  cost : Option ℚ := none
  started_at : Option String := none
  completed_at : Option String := none
  error : Option String := none

/-- An ingest envelope `{kind, payload}` dispatched on by `ingest_events`. -/
inductive IngestEvent where
  | run_complete (data : RunEventData)
  | run_failed (data : RunEventData)
  | step_complete (data : StepEventData)
  | step_failed (data : StepEventData)

/-- The record store the ingest route upserts into (keyed by record id). -/
structure DB where
  runs : List (String × Run) := []
  steps : List (String × Step) := []

/-- Keyed upsert into an association list (replace in place, else append). -/
def upsertList {α : Type} (l : List (String × α)) (k : String) (v : α) :
    List (String × α) :=
  match l with
  | [] => [(k, v)]
  | p :: rest => if p.1 == k then (k, v) :: rest else p :: upsertList rest k v

/-- Models `db.get(Run, run_id)`. -/
def dbGetRun (db : DB) (rid : String) : Option Run :=
  (db.runs.find? (fun p => p.1 == rid)).map Prod.snd

/-- Models `db.get(Step, step_id)`. -/
def dbGetStep (db : DB) (sid : String) : Option Step :=
  (db.steps.find? (fun p => p.1 == sid)).map Prod.snd

/-- Processing of a single ingest event (`routes.py`, `ingest_events`,
lines 32-129), translated branch by branch. -/
def ingest_event (db : DB) (ev : IngestEvent) : DB :=
  match ev with
  | .run_complete d =>
    match dbGetRun db d.id with
    | some run =>
      let run' := { run with status := RunStatus.COMPLETED
                             completed_at := d.completed_at
                             total_cost := d.total_cost.getD 0 }
      { db with runs := upsertList db.runs d.id run' }
    | none =>
      let run' : Run := { id := d.id, name := d.name
                          status := RunStatus.COMPLETED
                          total_cost := d.total_cost.getD 0, tags := d.tags
                          started_at := d.started_at
                          completed_at := d.completed_at }
      { db with runs := upsertList db.runs d.id run' }
  | .run_failed d =>
    match dbGetRun db d.id with
    | some run =>
      let run' := { run with status := RunStatus.FAILED
                             completed_at := d.completed_at
                             error := d.error }
      { db with runs := upsertList db.runs d.id run' }
    | none =>
      let run' : Run := { id := d.id, name := d.name
                          status := RunStatus.FAILED
                          total_cost := d.total_cost.getD 0, tags := d.tags
                          started_at := d.started_at
                          completed_at := d.completed_at, error := d.error }
      { db with runs := upsertList db.runs d.id run' }
  | .step_complete d =>
    match dbGetStep db d.id with
    | some st =>
      let st' := { st with outputs := d.outputs
                           step_metadata := d.metadata
                           completed_at := d.completed_at
                           cost := d.cost.getD 0 }
      { db with steps := upsertList db.steps d.id st' }
    | none =>
      let st : Step :=
        { id := d.id, run_id := d.run_id, name := d.name, type := d.type
          inputs := d.inputs, outputs := d.outputs
          step_metadata := d.metadata, reasoning := d.reasoning
          cost := d.cost.getD 0, started_at := d.started_at
          completed_at := d.completed_at }
      let db' := { db with steps := upsertList db.steps d.id st }
      match dbGetRun db' d.run_id with
      | some run =>
        let run' := { run with total_cost := run.total_cost + st.cost }
        { db' with runs := upsertList db'.runs d.run_id run' }
      | none => db'
  | .step_failed d =>
    match dbGetStep db d.id with
    | some st =>
      let st' := { st with error := d.error
                           completed_at := d.completed_at }
      { db with steps := upsertList db.steps d.id st' }
    | none =>
      let st : Step :=
        { id := d.id, run_id := d.run_id, name := d.name, type := d.type
          inputs := d.inputs, outputs := d.outputs
          step_metadata := d.metadata, reasoning := d.reasoning
          cost := d.cost.getD 0, started_at := d.started_at
          completed_at := d.completed_at, error := d.error }
      { db with steps := upsertList db.steps d.id st }

/-- The ingest route processes the batch's events in order. -/
def ingest_events (db : DB) (events : List IngestEvent) : DB :=
  events.foldl ingest_event db

/-- Total cost of the completed step rows belonging to a run (the quantity
the `RunRecord.total_cost` invariant is stated against). -/
def completedStepsCostSum (db : DB) (rid : String) : ℚ :=
  ((db.steps.filter
      (fun p => p.2.run_id == rid && p.2.completed_at.isSome)).map
    (fun p => p.2.cost)).sum

/-- The SDK's in-flight `run_data` dictionary (`client.py`, `start_run`). -/
structure RunData where
  id : String
  name : String
  tags : List (String × JVal) := []
  status : String
  started_at : String
  steps : List JVal := []
  completed_at : Option String := none
  error : Option String := none

/-- The SDK's in-flight `step_data` dictionary (`client.py`, `step` and
`process_candidates`); absent optional fields model absent dict keys. -/
structure StepData where
  id : String
  run_id : String
  name : String
  type : String
  reasoning : Option String := none
  inputs : Option JVal := none
  outputs : Option (List (String × JVal)) := none
  metadata : Option (List (String × JVal)) := none
  cost : Option ℚ := none
  started_at : String
  completed_at : Option String := none
  error : Option String := none

/-- An event pushed onto the SDK's queue: `{"type": ..., "data": ...}`. -/
inductive QueueEvent where
  | runEvent (etype : String) (data : RunData)
  | stepEvent (etype : String) (data : StepData)

/-- How the body of a `with` scope exits: normally, or raising a fault. -/
inductive BodyOutcome where
  | ok
  | raises (msg : String)

/-- Result of a `start_run` scope: the final run record, the enqueued
events, the restored current-run association, and what was re-raised. -/
structure RunScopeResult where
  record : RunData
  events : List QueueEvent
  current_run_after : Option RunData
  raised : Option String

/-- The `start_run` context manager (`client.py` lines 142-190), as a
function of the generated run id, the arguments, the two wall-clock
instants, the previously current run and the body's outcome. -/
def start_run (run_id : String) (name : String)
    (tags : Option (List (String × JVal))) (t_start t_end : String)
    (prev_run : Option RunData) (outcome : BodyOutcome) : RunScopeResult :=
  let run0 : RunData :=
    { id := run_id, name := name, tags := tags.getD []
      status := "RUNNING", started_at := t_start }
  match outcome with
  | .ok =>
    let r := { run0 with status := "COMPLETED", completed_at := some t_end }
    { record := r, events := [.runEvent "run_complete" r]
      current_run_after := prev_run, raised := none }
  | .raises e =>
    let r := { run0 with status := "FAILED", error := some e
                         completed_at := some t_end }
    { record := r, events := [.runEvent "run_failed" r]
      current_run_after := prev_run, raised := some e }

/-- The per-1K-token pricing table of `_calculate_llm_cost`
(`client.py` lines 372-377); prices are in USD. -/
def pricing : List (String × (ℚ × ℚ)) :=
  [("gpt-4", (3/100, 6/100)),
   ("gpt-4-turbo", (1/100, 3/100)),
   ("gpt-3.5-turbo", (15/10000, 2/1000)),
   ("gpt-4o", (5/1000, 15/1000))]

/-- Round half to even at integer precision (the tie rule of Python's
`round`). -/
def roundHalfEven (q : ℚ) : ℤ :=
  let f := ⌊q⌋
  let r := q - f
  if r < 1/2 then f
  else if 1/2 < r then f + 1
  else if f % 2 = 0 then f else f + 1

/-- Python's `round(x, 6)`. -/
def round6 (q : ℚ) : ℚ := (roundHalfEven (q * 1000000) : ℚ) / 1000000

/-- Models `_calculate_llm_cost` (`client.py` lines 350-385): token counts default
to 0, a missing or unknown model gets GPT-4 pricing, and the result is
rounded to 6 decimals; a non-numeric token count is a `TypeError`. -/
def calculate_llm_cost (token_usage : List (String × JVal)) :
    Except String ℚ :=
  let pv := (dictGet token_usage "prompt").getD (JVal.num 0)
  let cv := (dictGet token_usage "completion").getD (JVal.num 0)
  let mv := (dictGet token_usage "model").getD (JVal.str "gpt-4")
  match jnumOf pv, jnumOf cv with
  | some p, some c =>
    let pr : ℚ × ℚ :=
      match mv with
      | .str s => ((pricing.find? (fun x => x.1 == s)).map Prod.snd).getD
          (3/100, 6/100)
      | _ => (3/100, 6/100)
    .ok (round6 (p / 1000 * pr.1 + c / 1000 * pr.2))
  | _, _ => .error "TypeError"

/-- Result of a `step` scope. -/
structure StepScopeResult where
  record : Option StepData
  events : List QueueEvent
  current_step_after : Option StepData
  raised : Option String

/-- The `step` context manager (`client.py` lines 192-263). With no current
run it is an inert no-op that still lets the body's fault propagate. With a
current run it builds the step record, fills the cost field from the
explicit `cost` argument or (when that is `None` and `token_usage` is
truthy) from `_calculate_llm_cost`, and on exit enqueues `step_complete` or
`step_failed`, restores the previous current step, and re-raises the
body's fault. The `Except` layer carries a `TypeError` raised by the cost
computation at scope entry. -/
def step (current_run : Option RunData) (prev_step : Option StepData)
    (step_id : String) (name : String) (step_type : String)
    (reasoning : Option String) (inputs : Option JVal) (cost : Option ℚ)
    (token_usage : Option (List (String × JVal))) (t_start t_end : String)
    (outcome : BodyOutcome) : Except String StepScopeResult :=
  match current_run with
  | none =>
    .ok { record := none, events := [], current_step_after := prev_step
          raised := match outcome with
            | .ok => none
            | .raises e => some e }
  | some run_data =>
    let costField : Except String (Option ℚ) :=
      match token_usage, cost with
      | some tu, none =>
        if tu.isEmpty then .ok none
        else
          match calculate_llm_cost tu with
          | .ok q => .ok (some q)
          | .error e => .error e
      | _, some c => .ok (some c)
      | none, none => .ok none
    match costField with
    | .error e => .error e
    | .ok cf =>
      let sd : StepData :=
        { id := step_id, run_id := run_data.id, name := name
          type := step_type, reasoning := reasoning, inputs := inputs
          cost := cf, started_at := t_start }
      match outcome with
      | .ok =>
        let sd' := { sd with completed_at := some t_end }
        .ok { record := some sd'
              events := [.stepEvent "step_complete" sd']
              current_step_after := prev_step, raised := none }
      | .raises e =>
        let sd' := { sd with error := some e, completed_at := some t_end }
        .ok { record := some sd'
              events := [.stepEvent "step_failed" sd']
              current_step_after := prev_step, raised := some e }

/-- Models `reason or "unknown"`: a rejection with no reason, or with a falsy
(empty) reason string, is keyed under `"unknown"`. -/
def reasonKey (reason : Option String) : String :=
  match reason with
  | some r => if r == "" then "unknown" else r
  | none => "unknown"

/-- Models `rejection_histogram[key] = rejection_histogram.get(key, 0) + 1`: a
present key is incremented in place, a new key is appended (Python dicts
preserve insertion order). -/
def histIncr (h : List (String × Nat)) (k : String) : List (String × Nat) :=
  match h with
  | [] => [(k, 1)]
  | p :: rest => if p.1 == k then (p.1, p.2 + 1) :: rest else p :: histIncr rest k

/-- Value stored under a key of the histogram (`h.get(k, 0)`). -/
def histLookup (h : List (String × Nat)) (k : String) : Nat :=
  match h.find? (fun p => p.1 == k) with
  | some p => p.2
  | none => 0

/-- Sum of the histogram's values. -/
def histValuesSum (h : List (String × Nat)) : Nat :=
  (h.map Prod.snd).sum

/-- The candidate loop of `process_candidates` (`client.py` lines 297-305):
accepted candidates are appended to the survivors, each reject bumps the
histogram count of its reason key. -/
def summarizeLoop {α : Type} (filter_fn : α → Bool × Option String) :
    List α → List α → List (String × Nat) → List α × List (String × Nat)
  | [], survivors, hist => (survivors, hist)
  | c :: rest, survivors, hist =>
    let r := filter_fn c
    if r.1 then summarizeLoop filter_fn rest (survivors ++ [c]) hist
    else summarizeLoop filter_fn rest survivors (histIncr hist (reasonKey r.2))

/-- Python `repr` of the rejection histogram (only used inside the free-text
`reasoning` field of the summarizer's step record). -/
def histRepr (h : List (String × Nat)) : String :=
  "\x7b" ++ String.intercalate ", "
    (h.map (fun p => "\x27" ++ p.1 ++ "\x27: " ++ toString p.2)) ++ "\x7d"

/-- The summarizer's `reasoning` f-string (`client.py` lines 326-327). -/
def mkReasoning (total survived : Nat) (h : List (String × Nat)) : String :=
  "Filtered " ++ toString total ++ " candidates, " ++ toString survived ++
    " survived. Rejection reasons: " ++ histRepr h

/-- JSON encoding of the rejection histogram as it is embedded in the step
record's metadata. -/
def histJson (h : List (String × Nat)) : JVal :=
  .obj (h.map (fun p => (p.1, JVal.num (p.2 : ℚ))))

/-- Models `process_candidates` (`client.py` lines 265-335). With no current run
it is the pure filter `[c for c in candidates if filter_fn(c)[0]]` and
enqueues nothing. With a current run it partitions the candidates, builds
the summary FILTER step record (already completed, `cost` never set) and
enqueues it as a single `step_complete` event. `ser` stands for
`_serialize` applied to a candidate; `step_id` for the generated uuid;
`t_start`/`t_end` for the two wall-clock reads. -/
def process_candidates {α : Type} (ser : α → JVal)
    (current_run : Option RunData) (candidates : List α)
    (filter_fn : α → Bool × Option String) (step_name : Option String)
    (step_id : String) (t_start t_end : String) :
    List α × List QueueEvent :=
  match current_run with
  | none => (candidates.filter (fun c => (filter_fn c).1), [])
  | some run_data =>
    let sname :=
      match step_name with
      | some n => if n == "" then "filter_candidates" else n
      | none => "filter_candidates"
    let total : Nat := candidates.length
    let res := summarizeLoop filter_fn candidates [] []
    let survivors := res.1
    let hist := res.2
    let dr : ℚ :=
      if 0 < total then ((total : ℚ) - (survivors.length : ℚ)) / (total : ℚ)
      else 0
    let sample : JVal :=
      match candidates with
      | [] => JVal.null
      | c :: _ => ser c
    let sd : StepData :=
      { id := step_id, run_id := run_data.id, name := sname, type := "filter"
        reasoning := some (mkReasoning total survivors.length hist)
        inputs := some (.obj [("candidate_count", .num (total : ℚ)),
                              ("sample_input", sample)])
        outputs := some [("survivor_count", .num (survivors.length : ℚ)),
                         ("survivors", .arr (survivors.map ser))]
        metadata := some [("rejection_histogram", histJson hist),
                          ("drop_rate", .num dr),
                          ("total_count", .num (total : ℚ))]
        started_at := t_start, completed_at := some t_end }
    (survivors, [.stepEvent "step_complete" sd])

/-- The four ways a batch delivery attempt can end (`httpx` success,
timeout, connection error, or an HTTP status that `raise_for_status`
turns into an error, i.e. a 4xx/5xx code). -/
inductive DeliveryOutcome where
  | success
  | timeoutError
  | connectError
  | httpStatus (code : Nat)

/-- The single `client.post` + `raise_for_status` attempt inside the `try`
of `_flush_batch`. -/
def attemptPost (outcome : DeliveryOutcome) : Except String Unit :=
  match outcome with
  | .success => .ok ()
  | .timeoutError => .error "TimeoutException"
  | .connectError => .error "ConnectError"
  | .httpStatus c => if 400 ≤ c then .error "HTTPStatusError" else .ok ()

/-- Observable result of `_flush_batch`: how many delivery attempts were
made and what escaped to the caller. -/
structure FlushResult where
  delivery_attempts : Nat
  raised : Option String

/-- Models `_flush_batch` (`client.py` lines 102-123): an empty batch returns
immediately; otherwise exactly one delivery attempt is made and any
exception is swallowed (`except Exception: pass`). -/
def flush_batch (batch : List QueueEvent) (outcome : DeliveryOutcome) :
    FlushResult :=
  if batch.isEmpty then { delivery_attempts := 0, raised := none }
  else
    match attemptPost outcome with
    | .ok _ => { delivery_attempts := 1, raised := none }
    | .error _e => { delivery_attempts := 1, raised := none }

/-- The worker's in-memory batch state. -/
structure WorkerState where
  batch : List QueueEvent
  last_flush : ℚ

/-- Observable result of one iteration of `_worker_loop`. -/
structure WorkerStepResult where
  state : WorkerState
  flushed : Option (List QueueEvent)
  flush_result : Option FlushResult

/-- One iteration of `_worker_loop` (`client.py` lines 75-94): an incoming
event is appended to the batch; the batch is flushed when it reaches
`batch_size`, or when the queue timed out (`incoming = none`), the batch
is non-empty and `flush_interval` has elapsed since the last flush; after
a flush the batch is reset to empty whatever the delivery outcome. -/
def worker_iteration (batch_size : Nat) (flush_interval : ℚ)
    (s : WorkerState) (incoming : Option QueueEvent) (now : ℚ)
    (outcome : DeliveryOutcome) : WorkerStepResult :=
  let batch1 :=
    match incoming with
    | some e => s.batch ++ [e]
    | none => s.batch
  let should_flush : Bool :=
    decide (batch_size ≤ batch1.length) ||
      (incoming.isNone && decide (0 < batch1.length) &&
        decide (flush_interval ≤ now - s.last_flush))
  if should_flush && decide (0 < batch1.length) then
    { state := { batch := [], last_flush := now }
      flushed := some batch1
      flush_result := some (flush_batch batch1 outcome) }
  else
    { state := { batch := batch1, last_flush := s.last_flush }
      flushed := none
      flush_result := none }

/-- A sample in-flight run used to instantiate theorems with hypotheses. -/
def sampleRun : RunData :=
  { id := "r1", name := "pipeline", status := "RUNNING", started_at := "t0" }

/-- Any flush attempt is absorbed: no exception escapes `_flush_batch` and
at most one delivery attempt is made. -/
theorem flush_batch_absorbs (batch : List QueueEvent)
    (outcome : DeliveryOutcome) :
    (flush_batch batch outcome).raised = none ∧
    (flush_batch batch outcome).delivery_attempts ≤ 1 := by
  cases batch with
  | nil => simp [flush_batch]
  | cons e rest =>
    simp only [flush_batch, List.isEmpty_cons, Bool.false_eq_true, if_false]
    cases attemptPost outcome <;> simp

/-- One worker iteration either does not flush, or resets the batch to
empty and records the result of flushing the accumulated batch. -/
theorem worker_iteration_cases (batch_size : Nat) (flush_interval : ℚ)
    (s : WorkerState) (incoming : Option QueueEvent) (now : ℚ)
    (outcome : DeliveryOutcome) :
    ((worker_iteration batch_size flush_interval s incoming now
        outcome).flushed = none ∧
     (worker_iteration batch_size flush_interval s incoming now
        outcome).flush_result = none) ∨
    ((worker_iteration batch_size flush_interval s incoming now
        outcome).state.batch = [] ∧
     ∃ b, (worker_iteration batch_size flush_interval s incoming now
        outcome).flushed = some b ∧
       (worker_iteration batch_size flush_interval s incoming now
        outcome).flush_result = some (flush_batch b outcome)) := by
  simp only [worker_iteration]
  split
  · right
    exact ⟨rfl, _, rfl, rfl⟩
  · left
    exact ⟨rfl, rfl⟩

/-- C7: for every batch and delivery outcome, a failed delivery attempt
(timeout, connection error, or non-success status) leaves the batch
discarded: no exception propagates out of the flush, exactly one delivery
attempt (no retry) is made on a non-empty batch, and after any flush the
worker's batch is reset to empty, whatever the delivery outcome. -/
theorem delivery_failure_is_absorbed_and_batch_discarded :
    (∀ (batch : List QueueEvent) (outcome : DeliveryOutcome),
      batch ≠ [] →
      (flush_batch batch outcome).raised = none ∧
      (flush_batch batch outcome).delivery_attempts = 1) ∧
    (∀ (batch_size : Nat) (flush_interval : ℚ) (s : WorkerState)
       (incoming : Option QueueEvent) (now : ℚ) (outcome : DeliveryOutcome),
      ((worker_iteration batch_size flush_interval s incoming now
          outcome).flushed ≠ none →
        (worker_iteration batch_size flush_interval s incoming now
          outcome).state.batch = []) ∧
      (∀ fr, (worker_iteration batch_size flush_interval s incoming now
          outcome).flush_result = some fr →
        fr.raised = none ∧ fr.delivery_attempts ≤ 1)) := by
  constructor
  · intro batch outcome hne
    cases batch with
    | nil => exact absurd rfl hne
    | cons e rest =>
      simp only [flush_batch, List.isEmpty_cons, Bool.false_eq_true, if_false]
      cases attemptPost outcome <;> simp
  · intro batch_size flush_interval s incoming now outcome
    constructor
    · intro hf
      rcases worker_iteration_cases batch_size flush_interval s incoming now
          outcome with ⟨h1, _⟩ | ⟨h1, _⟩
      · exact absurd h1 hf
      · exact h1
    · intro fr hfr
      rcases worker_iteration_cases batch_size flush_interval s incoming now
          outcome with ⟨_, h2⟩ | ⟨_, b, _, h2⟩
      · rw [h2] at hfr
        exact Option.noConfusion hfr
      · rw [h2, Option.some.injEq] at hfr
        subst hfr
        exact flush_batch_absorbs _ _

/-- C7 witness: a connection error on a concrete one-event batch is
absorbed with a single delivery attempt. -/
theorem delivery_failure_witness :
    (flush_batch [QueueEvent.runEvent "run_complete" sampleRun]
        DeliveryOutcome.connectError).raised = none ∧
    (flush_batch [QueueEvent.runEvent "run_complete" sampleRun]
        DeliveryOutcome.connectError).delivery_attempts = 1 :=
  delivery_failure_is_absorbed_and_batch_discarded.1 _ _
    (List.cons_ne_nil _ _)

/-- C8: a `step` scope entered with no current run enqueues nothing,
creates no step record, leaves the current-step association untouched and
only forwards the body's fault; `process_candidates` with no current run
returns exactly the accepted candidates (a pure filter) and enqueues
nothing. -/
theorem no_current_run_scopes_are_inert :
    (∀ (prev_step : Option StepData) (step_id nm step_type : String)
       (reasoning : Option String) (inputs : Option JVal) (cost : Option ℚ)
       (token_usage : Option (List (String × JVal))) (t_start t_end : String)
       (outcome : BodyOutcome),
      step none prev_step step_id nm step_type reasoning inputs cost
          token_usage t_start t_end outcome =
        .ok { record := none, events := [], current_step_after := prev_step
              raised := match outcome with
                | .ok => none
                | .raises e => some e }) ∧
    (∀ (α : Type) (ser : α → JVal) (candidates : List α)
       (filter_fn : α → Bool × Option String) (step_name : Option String)
       (step_id t_start t_end : String),
      process_candidates ser none candidates filter_fn step_name step_id
          t_start t_end =
        (candidates.filter (fun c => (filter_fn c).1), [])) := by
  constructor
  · intro prev_step step_id nm step_type reasoning inputs cost tu t0 t1 outcome
    rfl
  · intro α ser candidates filter_fn step_name step_id t0 t1
    rfl

/-- C6: a run scope or an (active) step scope that exits via an exception
raised in its body marks the record failed (`FAILED` status for the run,
captured error text for both), enqueues the matching failure event,
restores the previously current run/step, and re-raises the same
exception. -/
theorem failing_scopes_record_and_reraise :
    (∀ (run_id nm : String) (tags : Option (List (String × JVal)))
       (t_start t_end : String) (prev_run : Option RunData) (e : String),
      (start_run run_id nm tags t_start t_end prev_run
          (.raises e)).record.status = "FAILED" ∧
      (start_run run_id nm tags t_start t_end prev_run
          (.raises e)).record.error = some e ∧
      (start_run run_id nm tags t_start t_end prev_run (.raises e)).events =
        [QueueEvent.runEvent "run_failed"
          (start_run run_id nm tags t_start t_end prev_run
            (.raises e)).record] ∧
      (start_run run_id nm tags t_start t_end prev_run
          (.raises e)).current_run_after = prev_run ∧
      (start_run run_id nm tags t_start t_end prev_run
          (.raises e)).raised = some e) ∧
    (∀ (run : RunData) (prev_step : Option StepData) (sid nm st : String)
       (reasoning : Option String) (inputs : Option JVal) (cost : Option ℚ)
       (tu : Option (List (String × JVal))) (t0 t1 e : String)
       (res : StepScopeResult),
      step (some run) prev_step sid nm st reasoning inputs cost tu t0 t1
          (.raises e) = .ok res →
      ∃ sd, res.record = some sd ∧ sd.error = some e ∧
        res.events = [QueueEvent.stepEvent "step_failed" sd] ∧
        res.current_step_after = prev_step ∧
        res.raised = some e) := by
  constructor
  · intro run_id nm tags t0 t1 prev_run e
    exact ⟨rfl, rfl, rfl, rfl, rfl⟩
  · intro run prev_step sid nm st reasoning inputs cost tu t0 t1 e res h
    cases tu <;> cases cost <;> simp only [step] at h
    case none.none =>
      rw [Except.ok.injEq] at h
      subst h
      exact ⟨_, rfl, rfl, rfl, rfl, rfl⟩
    case none.some c =>
      rw [Except.ok.injEq] at h
      subst h
      exact ⟨_, rfl, rfl, rfl, rfl, rfl⟩
    case some.none tu =>
      split at h
      · exact absurd h (by simp)
      · rw [Except.ok.injEq] at h
        subst h
        exact ⟨_, rfl, rfl, rfl, rfl, rfl⟩
    case some.some tu c =>
      rw [Except.ok.injEq] at h
      subst h
      exact ⟨_, rfl, rfl, rfl, rfl, rfl⟩

/-- The concrete result a failing step scope produces, used as a witness
instantiation. -/
def failedStepResult : StepScopeResult :=
  { record := some { id := "s1", run_id := "r1", name := "rank"
                     type := "logic", started_at := "t1"
                     completed_at := some "t2", error := some "boom" }
    events := [.stepEvent "step_failed"
      { id := "s1", run_id := "r1", name := "rank", type := "logic"
        started_at := "t1", completed_at := some "t2"
        error := some "boom" }]
    current_step_after := none
    raised := some "boom" }

/-- C6 witness: a concrete failing run scope and failing step scope show
the failure annotations, the failure events and the re-raise. -/
theorem failing_scopes_witness :
    ((start_run "r1" "pipeline" none "t0" "t2" none
        (.raises "boom")).record.status = "FAILED" ∧
      (start_run "r1" "pipeline" none "t0" "t2" none
        (.raises "boom")).raised = some "boom") ∧
    (∃ sd, failedStepResult.record = some sd ∧ sd.error = some "boom" ∧
      failedStepResult.events = [QueueEvent.stepEvent "step_failed" sd] ∧
      failedStepResult.current_step_after = none ∧
      failedStepResult.raised = some "boom") := by
  constructor
  · have h := failing_scopes_record_and_reraise.1 "r1" "pipeline" none "t0"
      "t2" none "boom"
    exact ⟨h.1, h.2.2.2.2⟩
  · exact failing_scopes_record_and_reraise.2 sampleRun none "s1" "rank"
      "logic" none none none none "t1" "t2" "boom" failedStepResult rfl

/-- Run payload of the C1 scenario: what the SDK sends for a run
(`run_data` carries no `total_cost` key). -/
def c1RunPayload : RunEventData := { id := "r1", name := "pipeline" }

/-- Step payload of the C1 scenario: a completed step costing 5. -/
def c1StepPayload : StepEventData :=
  { id := "s1", run_id := "r1", name := "rank", type := .llm
    cost := some 5, completed_at := some "t2" }

/-- C1: the incremental total-cost invariant breaks at `run_complete`.
After `run_complete`, `step_complete` (cost 5) the stored total cost is 5,
but re-processing `run_complete` for the existing run overwrites
`total_cost` with the event's (absent, hence 0) value, while the run's
completed steps still sum to 5. -/
theorem run_complete_overwrites_total_cost :
    ((dbGetRun (ingest_events {} [IngestEvent.run_complete c1RunPayload,
        IngestEvent.step_complete c1StepPayload]) "r1").map Run.total_cost =
      some 5) ∧
    ((dbGetRun (ingest_events {} [IngestEvent.run_complete c1RunPayload,
        IngestEvent.step_complete c1StepPayload,
        IngestEvent.run_complete c1RunPayload]) "r1").map Run.total_cost =
      some 0) ∧
    (completedStepsCostSum (ingest_events {}
        [IngestEvent.run_complete c1RunPayload,
         IngestEvent.step_complete c1StepPayload,
         IngestEvent.run_complete c1RunPayload]) "r1" = 5) := by
  refine ⟨?_, ?_, ?_⟩ <;>
    simp [ingest_events, ingest_event, c1RunPayload, c1StepPayload,
      dbGetRun, dbGetStep, upsertList, completedStepsCostSum]

theorem pyOr_some_truthy {v : JVal} {b : Option JVal} (h : truthy v = true) :
    pyOr (some v) b = some v := by
  simp [pyOr, h]

theorem pyOr_some_falsy {v : JVal} {b : Option JVal} (h : truthy v = false) :
    pyOr (some v) b = b := by
  simp [pyOr, h]

theorem pyOr_none {b : Option JVal} : pyOr none b = b := rfl

theorem truthy_num_zero : truthy (JVal.num 0) = false := by
  simp [truthy]

/-- A successful funnel entry carries exactly the derived counts and a
drop rate that `dropRateOf` accepted for them. -/
theorem funnelEntryOf_ok (s : Step) (e : DecisionFunnelStep)
    (h : funnelEntryOf s = .ok e) :
    e.input_count = (deriveCounts s).1 ∧
    e.output_count = (deriveCounts s).2 ∧
    dropRateOf (pyGet s.step_metadata "drop_rate") (deriveCounts s).1
      (deriveCounts s).2 = .ok e.drop_rate := by
  simp only [funnelEntryOf] at h
  split at h
  · exact absurd h (by simp)
  next dr heq =>
    rw [Except.ok.injEq] at h
    subst h
    exact ⟨rfl, rfl, heq⟩

/-- C2 (amended): for FILTER steps `input_count` is `metadata.total_count`
when that value is present and truthy, and falls back to
`inputs.candidate_count` when it is absent **or falsy** (so a present
`total_count` of 0 is skipped); `output_count` is `metadata.survivor_count`
when present and truthy, else the length of `outputs.survivors` when that
is a sequence, else absent. For RETRIEVAL steps no `input_count` is
derived, and `output_count` is `outputs.count` when present and truthy,
else the length of `outputs.items` when that is a sequence. -/
theorem count_extraction_with_falsy_fallback :
    (∀ (s : Step) (e : DecisionFunnelStep), funnelEntryOf s = .ok e →
      s.type = StepType.filter →
      ((∀ v, pyGet s.step_metadata "total_count" = some v →
          truthy v = true → e.input_count = some v) ∧
       (∀ v, pyGet s.step_metadata "total_count" = some v →
          truthy v = false →
          e.input_count = pyGet s.inputs "candidate_count") ∧
       (pyGet s.step_metadata "total_count" = none →
          e.input_count = pyGet s.inputs "candidate_count") ∧
       (∀ v, pyGet s.step_metadata "survivor_count" = some v →
          truthy v = true → e.output_count = some v) ∧
       (∀ v, pyGet s.step_metadata "survivor_count" = some v →
          truthy v = false →
          e.output_count = lenIfList (pyGet s.outputs "survivors")) ∧
       (pyGet s.step_metadata "survivor_count" = none →
          e.output_count = lenIfList (pyGet s.outputs "survivors")) ∧
       (∀ l, pyGet s.outputs "survivors" = some (JVal.arr l) →
          lenIfList (pyGet s.outputs "survivors") =
            some (JVal.num l.length)) ∧
       (∀ v, pyGet s.outputs "survivors" = some v →
          (∀ l, v ≠ JVal.arr l) →
          lenIfList (pyGet s.outputs "survivors") = none))) ∧
    (∀ (s : Step) (e : DecisionFunnelStep), funnelEntryOf s = .ok e →
      s.type = StepType.retrieval →
      (e.input_count = none ∧
       (∀ v, pyGet s.outputs "count" = some v → truthy v = true →
          e.output_count = some v) ∧
       (∀ v, pyGet s.outputs "count" = some v → truthy v = false →
          e.output_count = lenIfList (pyGet s.outputs "items")) ∧
       (pyGet s.outputs "count" = none →
          e.output_count = lenIfList (pyGet s.outputs "items")))) := by
  constructor
  · intro s e h htype
    obtain ⟨hic, hoc, -⟩ := funnelEntryOf_ok s e h
    rw [deriveCounts, htype] at hic hoc
    simp only at hic hoc
    refine ⟨?_, ?_, ?_, ?_, ?_, ?_, ?_, ?_⟩
    · intro v hv htr
      rw [hic, filterInputCount, hv, pyOr_some_truthy htr]
    · intro v hv htr
      rw [hic, filterInputCount, hv, pyOr_some_falsy htr]
    · intro hv
      rw [hic, filterInputCount, hv, pyOr_none]
    · intro v hv htr
      rw [hoc, filterOutputCount, hv, pyOr_some_truthy htr]
    · intro v hv htr
      rw [hoc, filterOutputCount, hv, pyOr_some_falsy htr]
    · intro hv
      rw [hoc, filterOutputCount, hv, pyOr_none]
    · intro l hl
      rw [hl]
      rfl
    · intro v hv hnl
      rw [hv]
      cases v with
      | arr l => exact absurd rfl (hnl l)
      | null => rfl
      | bool b => rfl
      | num q => rfl
      | str t => rfl
      | obj fs => rfl
  · intro s e h htype
    obtain ⟨hic, hoc, -⟩ := funnelEntryOf_ok s e h
    rw [deriveCounts, htype] at hic hoc
    simp only at hic hoc
    refine ⟨hic, ?_, ?_, ?_⟩
    · intro v hv htr
      rw [hoc, retrievalOutputCount, hv, pyOr_some_truthy htr]
    · intro v hv htr
      rw [hoc, retrievalOutputCount, hv, pyOr_some_falsy htr]
    · intro hv
      rw [hoc, retrievalOutputCount, hv, pyOr_none]

/-- C2 counterexample data: a FILTER step whose metadata carries
`total_count = 0` while its inputs carry `candidate_count = 7`. -/
def c2Step : Step :=
  { id := "st1", run_id := "r1", name := "screen", type := .filter
    inputs := [("candidate_count", .num 7)]
    step_metadata := [("total_count", .num 0)] }

/-- C2 counterexample: on `c2Step` the metadata's `total_count` is present
and equal to 0, yet the reconstructor's `input_count` is 7 (the
`candidate_count` fallback), not the present 0 the claim requires. -/
theorem present_zero_total_count_is_skipped :
    pyGet c2Step.step_metadata "total_count" = some (JVal.num 0) ∧
    funnelEntryOf c2Step = .ok
      { step_id := "st1", step_name := "screen", step_type := .filter
        input_count := some (JVal.num 7) } ∧
    some (JVal.num 7) ≠ some (JVal.num 0) := by
  refine ⟨rfl, rfl, ?_⟩
  simp

/-- A FILTER step with a truthy `total_count` only, used to instantiate the
C2 theorem. -/
def c2wStep : Step :=
  { id := "st3", run_id := "r1", name := "screen", type := .filter
    step_metadata := [("total_count", .num 5000)] }

/-- The funnel entry produced for `c2wStep`. -/
def c2wEntry : DecisionFunnelStep :=
  { step_id := "st3", step_name := "screen", step_type := .filter
    input_count := some (JVal.num 5000) }

/-- C2 witness: a present truthy `total_count` of 5000 becomes the entry's
`input_count`, and with no `survivor_count` and no `survivors` list the
`output_count` is absent. -/
theorem count_extraction_witness :
    c2wEntry.input_count = some (JVal.num 5000) ∧
    c2wEntry.output_count = none := by
  have h := (count_extraction_with_falsy_fallback.1 c2wStep c2wEntry rfl rfl)
  exact ⟨h.1 (JVal.num 5000) rfl rfl, h.2.2.2.2.2.1 rfl⟩

/-- C3 (amended): the entry's `drop_rate` is `metadata.drop_rate` whenever
that key is present (even for steps whose `total_count` is 0); otherwise,
when both derived counts are present, the input count is numeric and
positive, it is `(input_count - output_count) / input_count`; otherwise it
is absent. In particular a FILTER step with `total_count = 0`, **no
metadata `drop_rate`** and **no `candidate_count` fallback** gets an
absent drop rate, with no division by zero and no error. -/
theorem drop_rate_extraction :
    ∀ (s : Step) (e : DecisionFunnelStep), funnelEntryOf s = .ok e →
      ((∀ v, pyGet s.step_metadata "drop_rate" = some v →
          e.drop_rate = some v) ∧
       (pyGet s.step_metadata "drop_rate" = none →
         ∀ a b qa, e.input_count = some a → e.output_count = some b →
           jnumOf a = some qa → 0 < qa →
           ∃ qb, jnumOf b = some qb ∧
             e.drop_rate = some (JVal.num ((qa - qb) / qa))) ∧
       (pyGet s.step_metadata "drop_rate" = none →
         (e.input_count = none ∨ e.output_count = none ∨
          (∃ a qa, e.input_count = some a ∧ jnumOf a = some qa ∧ qa ≤ 0)) →
         e.drop_rate = none) ∧
       (s.type = StepType.filter →
         pyGet s.step_metadata "total_count" = some (JVal.num 0) →
         pyGet s.step_metadata "drop_rate" = none →
         pyGet s.inputs "candidate_count" = none →
         e.drop_rate = none)) := by
  intro s e h
  obtain ⟨hic, hoc, hdr⟩ := funnelEntryOf_ok s e h
  rw [← hic, ← hoc] at hdr
  have habsent : pyGet s.step_metadata "drop_rate" = none →
      (e.input_count = none ∨ e.output_count = none ∨
       (∃ a qa, e.input_count = some a ∧ jnumOf a = some qa ∧ qa ≤ 0)) →
      e.drop_rate = none := by
    intro hmd hcases
    rw [hmd] at hdr
    rcases hcases with h1 | h1 | ⟨a, qa, h1, h2, h3⟩
    · rw [h1] at hdr
      cases hx : e.output_count with
      | none =>
        rw [hx] at hdr
        simp only [dropRateOf, Except.ok.injEq] at hdr
        exact hdr.symm
      | some b =>
        rw [hx] at hdr
        simp only [dropRateOf, Except.ok.injEq] at hdr
        exact hdr.symm
    · rw [h1] at hdr
      cases hx : e.input_count with
      | none =>
        rw [hx] at hdr
        simp only [dropRateOf, Except.ok.injEq] at hdr
        exact hdr.symm
      | some a =>
        rw [hx] at hdr
        simp only [dropRateOf, Except.ok.injEq] at hdr
        exact hdr.symm
    · rw [h1] at hdr
      cases hx : e.output_count with
      | none =>
        rw [hx] at hdr
        simp only [dropRateOf, Except.ok.injEq] at hdr
        exact hdr.symm
      | some b =>
        rw [hx] at hdr
        simp only [dropRateOf, h2] at hdr
        rw [if_neg (not_lt.mpr h3), Except.ok.injEq] at hdr
        exact hdr.symm
  refine ⟨?_, ?_, habsent, ?_⟩
  · intro v hv
    rw [hv] at hdr
    simp only [dropRateOf, Except.ok.injEq] at hdr
    exact hdr.symm
  · intro hmd a b qa ha hb hqa hpos
    rw [hmd, ha, hb] at hdr
    simp only [dropRateOf, hqa] at hdr
    rw [if_pos hpos] at hdr
    cases hqb : jnumOf b with
    | none =>
      rw [hqb] at hdr
      exact absurd hdr (by simp)
    | some qb =>
      rw [hqb] at hdr
      rw [Except.ok.injEq] at hdr
      exact ⟨qb, rfl, hdr.symm⟩
  · intro htype htc hmd hcc
    apply habsent hmd
    left
    obtain ⟨hic', -, -⟩ := funnelEntryOf_ok s e h
    rw [deriveCounts, htype] at hic'
    simp only at hic'
    rw [hic', filterInputCount, htc, pyOr_some_falsy truthy_num_zero, hcc]

/-- C3 counterexample data: a FILTER step with `total_count = 0` whose
metadata also carries an explicit `drop_rate`. -/
def c3Step : Step :=
  { id := "st2", run_id := "r1", name := "screen", type := .filter
    step_metadata := [("total_count", .num 0), ("drop_rate", .num (1/2))] }

/-- C3 counterexample: `c3Step` has `total_count = 0`, yet its funnel entry
has `drop_rate = 1/2` (the metadata value), not the absent drop rate the
claim requires for every FILTER step with `total_count = 0`. -/
theorem zero_total_count_can_still_have_drop_rate :
    pyGet c3Step.step_metadata "total_count" = some (JVal.num 0) ∧
    funnelEntryOf c3Step = .ok
      { step_id := "st2", step_name := "screen", step_type := .filter
        drop_rate := some (JVal.num (1/2)) } ∧
    some (JVal.num (1/2)) ≠ (none : Option JVal) := by
  refine ⟨rfl, rfl, ?_⟩
  simp

/-- An LLM step whose metadata carries an explicit drop rate, used to
instantiate the C3 theorem. -/
def c3wStep : Step :=
  { id := "st4", run_id := "r1", name := "ask", type := .llm
    step_metadata := [("drop_rate", .num (99/100))] }

/-- The funnel entry produced for `c3wStep`. -/
def c3wEntry : DecisionFunnelStep :=
  { step_id := "st4", step_name := "ask", step_type := .llm
    drop_rate := some (JVal.num (99/100)) }

/-- C3 witness: a present metadata `drop_rate` is carried into the funnel
entry unchanged, and a FILTER step with `total_count = 0` and no other
sources gets an absent drop rate. -/
theorem drop_rate_extraction_witness :
    c3wEntry.drop_rate = some (JVal.num (99/100)) ∧
    ({ step_id := "st5", step_name := "screen", step_type := .filter
       : DecisionFunnelStep }).drop_rate = none := by
  constructor
  · exact (drop_rate_extraction c3wStep c3wEntry rfl).1 (JVal.num (99/100))
      rfl
  · exact (drop_rate_extraction
      { id := "st5", run_id := "r1", name := "screen", type := .filter
        step_metadata := [("total_count", .num 0)] }
      { step_id := "st5", step_name := "screen", step_type := .filter }
      rfl).2.2.2 rfl rfl rfl rfl

/-- The final output threaded through the funnel loop is the outputs of
the last LOGIC step of the processed list, falling back to the incoming
candidate. -/
theorem analyzeLoop_final_output (steps : List Step)
    (acc : List DecisionFunnelStep) (fo : Option (List (String × JVal)))
    (l : List DecisionFunnelStep) (f : Option (List (String × JVal)))
    (h : analyzeLoop steps acc fo = .ok (l, f)) :
    f = ((List.find? (fun s => s.type == StepType.logic)
        steps.reverse).map Step.outputs).or fo := by
  induction steps generalizing acc fo with
  | nil =>
    simp only [analyzeLoop, Except.ok.injEq, Prod.mk.injEq] at h
    simp [h.2.symm]
  | cons s rest ih =>
    simp only [analyzeLoop] at h
    cases hfe : funnelEntryOf s with
    | error e =>
      rw [hfe] at h
      exact absurd h (by simp)
    | ok entry =>
      rw [hfe] at h
      have hrec := ih (entry :: acc)
        (if (s.type == StepType.logic) = true then some s.outputs else fo) h
      rw [hrec, List.reverse_cons, List.find?_append]
      cases hfind : List.find? (fun s => s.type == StepType.logic)
          rest.reverse with
      | some x => simp [Option.or]
      | none =>
        cases hP : (s.type == StepType.logic) with
        | true => simp [List.find?, hP, Option.or]
        | false => simp [List.find?, hP, Option.or]

/-- C5: for every run and ordered step list that analyzes successfully,
the response's `final_output` is the outputs of the last LOGIC step (each
LOGIC step overwrites the previous candidate), absent when no LOGIC step
occurs; and a run with zero steps yields an empty funnel with no final
output rather than an error. -/
theorem final_output_is_last_logic :
    (∀ (run : Run) (steps : List Step) (res : AnalyzeResponse),
      analyze_run run steps = .ok res →
      res.final_output =
        (List.find? (fun s => s.type == StepType.logic)
          steps.reverse).map Step.outputs) ∧
    (∀ run : Run, analyze_run run [] = .ok
      { run_id := run.id, run_name := run.name, status := run.status
        total_cost := run.total_cost, funnel := [], final_output := none }) := by
  constructor
  · intro run steps res h
    simp only [analyze_run] at h
    cases hal : analyzeLoop steps [] none with
    | error e =>
      rw [hal] at h
      exact absurd h (by simp)
    | ok p =>
      obtain ⟨funl, fo⟩ := p
      rw [hal] at h
      simp only [Except.ok.injEq] at h
      subst h
      have := analyzeLoop_final_output steps [] none funl fo hal
      simpa using this
  · intro run
    rfl

/-- First LOGIC step of the C5 witness run. -/
def c5Step1 : Step :=
  { id := "l1", run_id := "r1", name := "narrow", type := .logic
    outputs := [("selected", .str "A")], started_at := some "t1" }

/-- Second (and last) LOGIC step of the C5 witness run. -/
def c5Step2 : Step :=
  { id := "l2", run_id := "r1", name := "pick", type := .logic
    outputs := [("selected", .str "X")], started_at := some "t2" }

/-- The C5 witness run row. -/
def c5Run : Run := { id := "r1", name := "pipeline", status := .COMPLETED }

/-- The analyze response of the C5 witness run. -/
def c5Res : AnalyzeResponse :=
  { run_id := "r1", run_name := "pipeline", status := .COMPLETED
    total_cost := 0
    funnel := [{ step_id := "l1", step_name := "narrow", step_type := .logic },
               { step_id := "l2", step_name := "pick", step_type := .logic }]
    final_output := some [("selected", JVal.str "X")] }

/-- C5 witness: two LOGIC steps yield the second one's outputs as the
final output, and a zero-step run analyzes to an empty funnel. -/
theorem final_output_witness :
    c5Res.final_output = some [("selected", JVal.str "X")] ∧
    analyze_run c5Run [] = .ok
      { run_id := "r1", run_name := "pipeline", status := .COMPLETED
        total_cost := 0, funnel := [], final_output := none } := by
  constructor
  · exact (final_output_is_last_logic.1 c5Run [c5Step1, c5Step2] c5Res
      rfl).trans rfl
  · exact final_output_is_last_logic.2 c5Run

/-- Incrementing a histogram key adds one to the sum of its values. -/
theorem histValuesSum_incr (h : List (String × Nat)) (k : String) :
    histValuesSum (histIncr h k) = histValuesSum h + 1 := by
  induction h with
  | nil => rfl
  | cons p rest ih =>
    by_cases hk : (p.1 == k) = true
    · simp only [histIncr, if_pos hk, histValuesSum, List.map_cons,
        List.sum_cons]
      simp [histValuesSum] at ih ⊢
      omega
    · simp only [histIncr, if_neg hk, histValuesSum, List.map_cons,
        List.sum_cons]
      simp [histValuesSum] at ih ⊢
      omega

/-- Incrementing a key bumps that key's looked-up count by one. -/
theorem histLookup_incr_self (h : List (String × Nat)) (k : String) :
    histLookup (histIncr h k) k = histLookup h k + 1 := by
  induction h with
  | nil => simp [histIncr, histLookup, List.find?]
  | cons p rest ih =>
    by_cases hpk : (p.1 == k) = true
    · simp [histIncr, hpk, histLookup, List.find?]
    · simp only [histIncr, if_neg hpk]
      simp [histLookup, List.find?, hpk] at ih ⊢
      exact ih

/-- Incrementing a key leaves every other key's count unchanged. -/
theorem histLookup_incr_other (h : List (String × Nat)) (k k' : String)
    (hne : k' ≠ k) : histLookup (histIncr h k) k' = histLookup h k' := by
  induction h with
  | nil =>
    have : (k == k') = false := by
      simp [Ne.symm hne]
    simp [histIncr, histLookup, List.find?, this]
  | cons p rest ih =>
    by_cases hpk : (p.1 == k) = true
    · have hp : p.1 = k := by simpa using hpk
      have : (p.1 == k') = false := by
        simp [hp, Ne.symm hne]
      simp [histIncr, hpk, histLookup, List.find?, this]
    · by_cases hpk' : (p.1 == k') = true
      · simp [histIncr, hpk, histLookup, List.find?, hpk']
      · simp only [histIncr, if_neg hpk]
        simp [histLookup, List.find?, hpk'] at ih ⊢
        exact ih

/-- The survivors of the candidate loop are the accepted candidates, in
their original relative order, appended to the accumulator. -/
theorem summarizeLoop_fst {α : Type} (f : α → Bool × Option String)
    (cs acc : List α) (hist : List (String × Nat)) :
    (summarizeLoop f cs acc hist).1 = acc ++ cs.filter (fun c => (f c).1) := by
  induction cs generalizing acc hist with
  | nil => simp [summarizeLoop]
  | cons c rest ih =>
    simp only [summarizeLoop]
    by_cases hfc : (f c).1 = true
    · rw [if_pos hfc, ih]
      simp [List.filter_cons, hfc]
    · rw [if_neg hfc, ih]
      have hfc' : (f c).1 = false := by simpa using hfc
      simp [List.filter_cons, hfc']

/-- Histogram total plus survivor count equals what came in plus the
number of candidates processed. -/
theorem summarizeLoop_sum {α : Type} (f : α → Bool × Option String)
    (cs acc : List α) (hist : List (String × Nat)) :
    histValuesSum (summarizeLoop f cs acc hist).2 +
      (summarizeLoop f cs acc hist).1.length =
      histValuesSum hist + acc.length + cs.length := by
  induction cs generalizing acc hist with
  | nil => simp [summarizeLoop]
  | cons c rest ih =>
    simp only [summarizeLoop]
    by_cases hfc : (f c).1 = true
    · rw [if_pos hfc, ih]
      simp only [List.length_append, List.length_cons, List.length_nil]
      omega
    · rw [if_neg hfc, ih, histValuesSum_incr]
      simp only [List.length_cons]
      omega

/-- Each histogram key counts exactly the rejected candidates whose reason
key is that key. -/
theorem summarizeLoop_lookup {α : Type} (f : α → Bool × Option String)
    (cs acc : List α) (hist : List (String × Nat)) (k : String) :
    histLookup (summarizeLoop f cs acc hist).2 k =
      histLookup hist k +
        (cs.filter
          (fun c => !(f c).1 && (reasonKey (f c).2 == k))).length := by
  induction cs generalizing acc hist with
  | nil => simp [summarizeLoop]
  | cons c rest ih =>
    simp only [summarizeLoop]
    by_cases hfc : (f c).1 = true
    · rw [if_pos hfc, ih]
      simp [List.filter_cons, hfc]
    · have hfc' : (f c).1 = false := by simpa using hfc
      rw [if_neg hfc, ih]
      by_cases hk : reasonKey (f c).2 = k
      · rw [hk, histLookup_incr_self]
        simp [List.filter_cons, hfc', hk]
        omega
      · rw [histLookup_incr_other hist (reasonKey (f c).2) k (Ne.symm hk)]
        have : (reasonKey (f c).2 == k) = false := by
          simp [hk]
        simp [List.filter_cons, hfc', this]

/-- C4 (amended): with a current run, `process_candidates` returns exactly
the accepted candidates in their original relative order; the rejection
histogram's values sum to the total number of candidates minus the number
of survivors; and each key of the histogram counts the rejected candidates
whose reason is that key, where a reject with an absent **or empty**
reason string is counted under `"unknown"` (the `reasonKey` mapping). -/
theorem summarizer_survivors_and_histogram :
    ∀ (α : Type) (ser : α → JVal) (run : RunData) (cs : List α)
      (f : α → Bool × Option String) (sn : Option String)
      (sid t0 t1 : String),
      (process_candidates ser (some run) cs f sn sid t0 t1).1 =
        cs.filter (fun c => (f c).1) ∧
      histValuesSum (summarizeLoop f cs [] []).2 +
        (process_candidates ser (some run) cs f sn sid t0 t1).1.length =
        cs.length ∧
      (∀ k, histLookup (summarizeLoop f cs [] []).2 k =
        (cs.filter
          (fun c => !(f c).1 && (reasonKey (f c).2 == k))).length) := by
  intro α ser run cs f sn sid t0 t1
  have h1 : (process_candidates ser (some run) cs f sn sid t0 t1).1 =
      (summarizeLoop f cs [] []).1 := rfl
  refine ⟨?_, ?_, ?_⟩
  · rw [h1, summarizeLoop_fst]
    simp
  · rw [h1]
    have h2 := summarizeLoop_sum f cs [] []
    rw [show histValuesSum [] = 0 from rfl] at h2
    simpa using h2
  · intro k
    have h3 := summarizeLoop_lookup f cs [] [] k
    rw [show histLookup [] k = 0 from rfl] at h3
    simpa using h3

/-- Extracts the rejection histogram of the single enqueued step event. -/
def soleEventHistogram (evs : List QueueEvent) : Option JVal :=
  match evs with
  | [QueueEvent.stepEvent _ sd] =>
    match sd.metadata with
    | some md => pyGet md "rejection_histogram"
    | none => none
  | _ => none

/-- C4 counterexample: a reject with the present-but-empty reason string
`""` is recorded under the `"unknown"` key, not under its reason string
`""` as the claim requires. -/
theorem empty_reason_counts_as_unknown :
    soleEventHistogram (process_candidates (fun n : Nat => JVal.num n)
        (some sampleRun) [0] (fun _ => (false, some "")) none "sid" "t0"
        "t1").2 = some (histJson [("unknown", 1)]) ∧
    histLookup (summarizeLoop (fun _ : Nat => (false, some "")) [0] [] []).2
      "" = 0 ∧
    ("unknown" : String) ≠ "" := by
  refine ⟨rfl, rfl, ?_⟩
  simp

/-- C9 (amended): with a current run, the summarizer enqueues exactly one
already-completed `step_complete` event whose record has type `filter`,
carries both timestamps and no cost; its metadata carries `total_count`
(the input length), the rejection histogram, and `drop_rate` equal to
`(total - survivors) / total` (0 when the total is 0) — while the survivor
count (the number of survivors) is carried in the record's **outputs**
under `survivor_count`, not in its metadata. -/
theorem summarizer_step_record_shape :
    ∀ (α : Type) (ser : α → JVal) (run : RunData) (cs : List α)
      (f : α → Bool × Option String) (sn : Option String)
      (sid t0 t1 : String),
      ∃ sd md outs,
        (process_candidates ser (some run) cs f sn sid t0 t1).2 =
          [QueueEvent.stepEvent "step_complete" sd] ∧
        sd.type = "filter" ∧
        sd.metadata = some md ∧
        sd.outputs = some outs ∧
        pyGet md "total_count" = some (JVal.num (cs.length : ℚ)) ∧
        pyGet md "survivor_count" = none ∧
        pyGet outs "survivor_count" = some (JVal.num
          (((process_candidates ser (some run) cs f sn sid
            t0 t1).1.length : ℚ))) ∧
        pyGet md "drop_rate" = some (JVal.num
          (if 0 < cs.length then
            ((cs.length : ℚ) -
              ((process_candidates ser (some run) cs f sn sid
                t0 t1).1.length : ℚ)) / (cs.length : ℚ)
           else 0)) ∧
        pyGet md "rejection_histogram" =
          some (histJson (summarizeLoop f cs [] []).2) ∧
        sd.started_at = t0 ∧ sd.completed_at = some t1 ∧
        sd.cost = none := by
  intro α ser run cs f sn sid t0 t1
  exact ⟨_, _, _, rfl, rfl, rfl, rfl, rfl, rfl, rfl, rfl, rfl, rfl, rfl, rfl⟩

/-- Extracts the single enqueued step record, when there is exactly one. -/
def soleStepEventData (evs : List QueueEvent) : Option StepData :=
  match evs with
  | [QueueEvent.stepEvent _ sd] => some sd
  | _ => none

/-- C9 counterexample: for a concrete summarizer call the produced record's
metadata holds no `survivor_count` key (the claim requires metadata to
carry it); the survivor count sits in the record's outputs instead. -/
theorem survivor_count_not_in_metadata :
    ((soleStepEventData (process_candidates (fun n : Nat => JVal.num n)
        (some sampleRun) [1, 2] (fun n => (n == 1, some "too_big")) none
        "sid" "t0" "t1").2).bind StepData.metadata).bind
      (fun md => pyGet md "survivor_count") = none ∧
    ((soleStepEventData (process_candidates (fun n : Nat => JVal.num n)
        (some sampleRun) [1, 2] (fun n => (n == 1, some "too_big")) none
        "sid" "t0" "t1").2).bind StepData.outputs).bind
      (fun o => pyGet o "survivor_count") =
      some (JVal.num ((1 : Nat) : ℚ)) := by
  constructor <;> rfl

/-- A keyed upsert is found again under its key. -/
theorem upsertList_find_self {α : Type} (l : List (String × α)) (k : String)
    (v : α) :
    (upsertList l k v).find? (fun p => p.1 == k) = some (k, v) := by
  induction l with
  | nil => simp [upsertList, List.find?]
  | cons p rest ih =>
    by_cases hpk : (p.1 == k) = true
    · simp [upsertList, hpk, List.find?]
    · simp [upsertList, hpk, List.find?, ih]

/-- Ingesting `step_complete` for an unknown step id creates exactly the
row read off the payload (with `cost` defaulted through `.get`). -/
theorem dbGetStep_step_complete_new (db : DB) (d : StepEventData)
    (hget : dbGetStep db d.id = none) :
    dbGetStep (ingest_event db (.step_complete d)) d.id =
      some { id := d.id, run_id := d.run_id, name := d.name, type := d.type
             inputs := d.inputs, outputs := d.outputs
             step_metadata := d.metadata, reasoning := d.reasoning
             cost := d.cost.getD 0, started_at := d.started_at
             completed_at := d.completed_at } := by
  simp only [ingest_event, hget]
  split
  · simp [dbGetStep, upsertList_find_self]
  · simp [dbGetStep, upsertList_find_self]

/-- C10 (amended): in a step scope an explicitly supplied cost always
becomes the record's cost, even when `token_usage` is also given; when
`cost` is absent and `token_usage` is present **and non-empty (truthy)**,
the cost is `_calculate_llm_cost` of the usage — the fixed per-1K pricing
table keyed by the `model` field, with a missing or unknown model priced
as `gpt-4`, rounded to 6 decimals; when `cost` is absent and `token_usage`
is absent **or empty**, the record carries no cost field; and the ingest
side defaults an absent cost to 0 when creating the step row. -/
theorem step_cost_resolution :
    (∀ (run : RunData) (prev : Option StepData) (sid nm st : String)
       (reasoning : Option String) (inputs : Option JVal) (c : ℚ)
       (tu : Option (List (String × JVal))) (t0 t1 : String)
       (outcome : BodyOutcome) (res : StepScopeResult),
      step (some run) prev sid nm st reasoning inputs (some c) tu t0 t1
          outcome = .ok res →
      ∃ sd, res.record = some sd ∧ sd.cost = some c) ∧
    (∀ (run : RunData) (prev : Option StepData) (sid nm st : String)
       (reasoning : Option String) (inputs : Option JVal)
       (tu : List (String × JVal)) (q : ℚ) (t0 t1 : String)
       (outcome : BodyOutcome) (res : StepScopeResult),
      tu ≠ [] → calculate_llm_cost tu = .ok q →
      step (some run) prev sid nm st reasoning inputs none (some tu) t0 t1
          outcome = .ok res →
      ∃ sd, res.record = some sd ∧ sd.cost = some q) ∧
    (∀ (run : RunData) (prev : Option StepData) (sid nm st : String)
       (reasoning : Option String) (inputs : Option JVal) (t0 t1 : String)
       (outcome : BodyOutcome) (res : StepScopeResult),
      (step (some run) prev sid nm st reasoning inputs none none t0 t1
          outcome = .ok res ∨
       step (some run) prev sid nm st reasoning inputs none (some []) t0 t1
          outcome = .ok res) →
      ∃ sd, res.record = some sd ∧ sd.cost = none) ∧
    (∀ (tu : List (String × JVal)) (pq cq : ℚ) (m : String) (pp cp : ℚ),
      dictGet tu "prompt" = some (JVal.num pq) →
      dictGet tu "completion" = some (JVal.num cq) →
      dictGet tu "model" = some (JVal.str m) →
      (pricing.find? (fun x => x.1 == m)).map Prod.snd = some (pp, cp) →
      calculate_llm_cost tu =
        .ok (round6 (pq / 1000 * pp + cq / 1000 * cp))) ∧
    (∀ (tu : List (String × JVal)) (pq cq : ℚ),
      dictGet tu "prompt" = some (JVal.num pq) →
      dictGet tu "completion" = some (JVal.num cq) →
      (dictGet tu "model" = none ∨
       (∃ m, dictGet tu "model" = some (JVal.str m) ∧
         pricing.find? (fun x => x.1 == m) = none)) →
      calculate_llm_cost tu =
        .ok (round6 (pq / 1000 * (3/100) + cq / 1000 * (6/100)))) ∧
    (∀ (db : DB) (d : StepEventData),
      d.cost = none → dbGetStep db d.id = none →
      ∃ st, dbGetStep (ingest_event db (.step_complete d)) d.id = some st ∧
        st.cost = 0) := by
  refine ⟨?_, ?_, ?_, ?_, ?_, ?_⟩
  · intro run prev sid nm st reasoning inputs c tu t0 t1 outcome res h
    cases tu <;> cases outcome <;>
      (have h2 := Except.ok.inj h.symm; subst h2; exact ⟨_, rfl, rfl⟩)
  · intro run prev sid nm st reasoning inputs tu q t0 t1 outcome res hne
      hcalc h
    have hemp : tu.isEmpty = false := by
      cases tu with
      | nil => exact absurd rfl hne
      | cons a l => rfl
    simp only [step, hemp, hcalc] at h
    cases outcome <;>
      (have h2 := Except.ok.inj h.symm; subst h2; exact ⟨_, rfl, rfl⟩)
  · intro run prev sid nm st reasoning inputs t0 t1 outcome res h
    rcases h with h | h <;> cases outcome <;>
      (have h2 := Except.ok.inj h.symm; subst h2; exact ⟨_, rfl, rfl⟩)
  · intro tu pq cq m pp cp hp hc hm hfind
    simp only [calculate_llm_cost, hp, hc, hm, Option.getD_some, jnumOf,
      hfind]
  · intro tu pq cq hp hc hm
    rcases hm with hm | ⟨m, hm, hfind⟩
    · simp only [calculate_llm_cost, hp, hc, hm, Option.getD_some,
        Option.getD_none, jnumOf]
      rfl
    · simp only [calculate_llm_cost, hp, hc, hm, Option.getD_some, jnumOf,
        hfind]
      rfl
  · intro db d hcost hget
    refine ⟨_, dbGetStep_step_complete_new db d hget, ?_⟩
    rw [hcost]
    rfl

/-- The step record of the C10 counterexample (no cost field). -/
def c10sd : StepData :=
  { id := "s1", run_id := "r1", name := "ask", type := "llm"
    started_at := "t0", completed_at := some "t1" }

/-- C10 counterexample: with `cost` absent and `token_usage` present but
empty, the step record carries **no** cost field, although
`_calculate_llm_cost` of that usage is 0 — so a present `token_usage` does
not always produce a computed cost, contrary to the claim. -/
theorem empty_token_usage_yields_no_cost_field :
    step (some sampleRun) none "s1" "ask" "llm" none none none (some [])
        "t0" "t1" BodyOutcome.ok =
      .ok { record := some c10sd
            events := [.stepEvent "step_complete" c10sd]
            current_step_after := none, raised := none } ∧
    c10sd.cost = none ∧
    calculate_llm_cost [] = .ok 0 := by
  refine ⟨rfl, rfl, ?_⟩
  have h : calculate_llm_cost [] =
      .ok (round6 ((0 : ℚ) / 1000 * (3/100) + (0 : ℚ) / 1000 * (6/100))) :=
    rfl
  rw [h]
  norm_num [round6, roundHalfEven]

/-- The step record produced by the C10 witness call with explicit cost. -/
def c10aSd : StepData :=
  { id := "s2", run_id := "r1", name := "ask", type := "llm"
    cost := some 2, started_at := "t0", completed_at := some "t1" }

/-- The scope result of the C10 witness call. -/
def c10aRes : StepScopeResult :=
  { record := some c10aSd
    events := [.stepEvent "step_complete" c10aSd]
    current_step_after := none, raised := none }

/-- A step payload with no cost field, for the ingest-default witness. -/
def c10IngestPayload : StepEventData :=
  { id := "s9", run_id := "r1", name := "route", type := .logic }

/-- C10 witness: an explicit cost of 2 wins although `token_usage` is also
given; an ingested step payload without a cost is stored with cost 0; and
a usage with 1000 prompt and completion tokens and no model is priced at
the GPT-4 rates. -/
theorem step_cost_resolution_witness :
    (∃ sd, c10aRes.record = some sd ∧ sd.cost = some 2) ∧
    (∃ st, dbGetStep (ingest_event {}
        (IngestEvent.step_complete c10IngestPayload)) "s9" = some st ∧
      st.cost = 0) ∧
    calculate_llm_cost [("prompt", JVal.num 1000),
        ("completion", JVal.num 1000)] =
      .ok (round6 ((1000 : ℚ) / 1000 * (3/100) +
        (1000 : ℚ) / 1000 * (6/100))) := by
  refine ⟨?_, ?_, ?_⟩
  · exact step_cost_resolution.1 sampleRun none "s2" "ask" "llm" none none 2
      (some [("prompt", JVal.num 500)]) "t0" "t1" .ok c10aRes rfl
  · exact step_cost_resolution.2.2.2.2.2 {} c10IngestPayload rfl rfl
  · exact step_cost_resolution.2.2.2.2.1
      [("prompt", JVal.num 1000), ("completion", JVal.num 1000)] 1000 1000
      rfl rfl (Or.inl rfl)

end XRay
